import Mathlib

set_option maxHeartbeats 1000000

/-!
Shallow embedding of `src/ctapipe/reco/DeepLearningReconstructor.py`.

`ONNXModel.predict` (lines 18-63): argument-usage validation, positional-to-
named mapping onto the schema's input names, batch-length check, float64 →
float32 narrowing of ndarray inputs, and the opaque backend call `sess.run`.

`DeepLearningReconstructor` (lines 104-170): the construction-time
supported-camera check of `__init__` and the per-camera dispatch loop of
`predict` that builds the `predictions` dict before `_reconstruct` combines it
(`_reconstruct` itself is abstract and out of scope).

Python dicts are embedded as association lists in insertion order; dict
assignment `d[k] = v` updates the existing entry in place or appends a new one
(`dictInsert`); `d.get(k)` is `dictGet`.  Tensors carry a dtype and a shape
when they are numpy ndarrays, or just a length when they are plain sequences;
`len(x)` is `tlen`.  The backend session is an opaque function field `run`.
-/

/-- Numeric dtypes relevant to the narrowing rule of `ONNXModel.predict`. -/
inductive DType
  | float32
  | float64
  | int64
  deriving DecidableEq

/-- A model-ready value: a numpy ndarray with a dtype and a shape, or a plain
Python sequence of which only the length is observed by the code. -/
inductive Tensor
  | ndarray (dtype : DType) (shape : List Nat)
  | pylist (len : Nat)
  deriving DecidableEq

/-- Python `len(x)`: the leading dimension of an ndarray, the length of a
plain sequence.  (A 0-dimensional ndarray, where `len` would raise, is mapped
to 0; no claim exercises that case.) -/
def tlen : Tensor → Nat
  | .ndarray _ shape => shape.headD 0
  | .pylist n => n

/-- `inp.astype(np.float32)` applied exactly when
`isinstance(inp, np.ndarray) and inp.dtype == np.float64` (lines 61-62):
a float64 ndarray is retagged float32 with the same shape, everything else is
returned unchanged. -/
def convert : Tensor → Tensor
  | .ndarray .float64 shape => .ndarray .float32 shape
  | t => t

/-- `isinstance(inp, np.ndarray) and inp.dtype == np.float64`. -/
def isF64 : Tensor → Bool
  | .ndarray .float64 _ => true
  | _ => false

/-- The error taxonomy of `ONNXModel.predict`: the three `ValueError`s of
lines 35-55, distinguished by their messages, under the spec's names. -/
inductive PredictError
  | invalidArgumentUsage
  | arityMismatch
  | batchSizeMismatch
  deriving DecidableEq

/-- A loaded ONNX model: the ordered input-slot names reported by
`self.inputs` (`sess.get_inputs()`), and the opaque backend call
`self.sess.run(None, kwargs)` as a function from the named-input dict to the
output list. -/
structure ONNXModel where
  inputs : List String
  run : List (String × Tensor) → List Tensor

/-- Python dict assignment `d[k] = v`: update the existing entry in place
(keeping its position) or append a fresh entry at the end. -/
def dictInsert {α : Type} : List (String × α) → String → α → List (String × α)
  | [], k, v => [(k, v)]
  | (k', v') :: rest, k, v =>
      if k' = k then (k, v) :: rest else (k', v') :: dictInsert rest k v

/-- Python `d.get(k)` / `d[k]` on a dict (keys unique, first match). -/
def dictGet {α : Type} : List (String × α) → String → Option α
  | [], _ => none
  | (k, v) :: rest, key => if k = key then some v else dictGet rest key

/-- Lines 50-51: `for i in range(n_inputs): kwargs[inputs[i].name] = args[i]`.
On every reachable call the two lists have equal length (or both iterations
are empty when `n_inputs = 0`), so pairwise recursion is faithful. -/
def assignArgs {α : Type} : List (String × α) → List String → List α → List (String × α)
  | kw, name :: names, a :: rest => assignArgs (dictInsert kw name a) names rest
  | kw, _, _ => kw

/-- `ONNXModel.predict` (lines 18-63): validate the calling convention, map
positional arguments onto the schema names, check that all inputs share one
leading length, narrow float64 ndarrays to float32, and call the backend. -/
def ONNXModel.predict (m : ONNXModel) (args : List Tensor)
    (kwargs : List (String × Tensor)) : Except PredictError (List Tensor) :=
  let nInputs := m.inputs.length
  if kwargs.length = 0 ∧ args.length = 0 then
    .error .invalidArgumentUsage
  else if kwargs.length ≠ 0 ∧ args.length ≠ 0 then
    .error .invalidArgumentUsage
  else if kwargs.length ≠ nInputs ∧ args.length ≠ nInputs then
    .error .arityMismatch
  else
    let kw := if args.length ≠ 0 then assignArgs kwargs m.inputs args else kwargs
    let nPredictions := kw.map fun p => tlen p.2
    if nPredictions.dedup.length ≠ 1 then
      .error .batchSizeMismatch
    else
      .ok (m.run (kw.map fun p => (p.1, convert p.2)))

/-- Value-wise map over a dict, key order preserved (the shape of the
conversion loop of lines 57-62). -/
def mapVals (f : Tensor → Tensor) (kw : List (String × Tensor)) :
    List (String × Tensor) :=
  kw.map fun p => (p.1, f p.2)

/-- One telescope's model-ready input, as discriminated by lines 164-168:
a Python list (unpacked positionally), a dict (unpacked as named arguments),
or a bare tensor (a single positional argument). -/
inductive TelInput
  | positional (args : List Tensor)
  | named (kwargs : List (String × Tensor))
  | single (t : Tensor)

/-- Lines 164-169: invoke `model.predict` with the convention matching the
input's kind. -/
def predictObs (m : ONNXModel) : TelInput → Except PredictError (List Tensor)
  | .positional args => m.predict args []
  | .named kw => m.predict [] kw
  | .single t => m.predict [t] []

/-- Lines 163-169: predict each collected observation in order; the first
exception aborts the whole loop. -/
def predictAll (m : ONNXModel) :
    List TelInput → Except PredictError (List (List Tensor))
  | [] => .ok []
  | inp :: rest =>
    match predictObs m inp with
    | .error e => .error e
    | .ok r =>
      match predictAll m rest with
      | .error e => .error e
      | .ok rs => .ok (r :: rs)

/-- Lines 156-160: `obs_inputs`, the inputs of the telescopes whose camera
name matches, in the iteration order of `tels_dict`.  `camOf` is
`subarray.tel[tel_id].camera.geometry.camera_name`. -/
def collectInputs (camOf : Nat → String) (tels : List (Nat × TelInput))
    (cam : String) : List TelInput :=
  (tels.filter fun p => camOf p.1 = cam).map Prod.snd

/-- The construction-time error of `DeepLearningReconstructor.__init__`
(lines 113-118), carrying the offending camera names. -/
inductive InitError
  | unsupportedCamera (camNames : List String)
  deriving DecidableEq

/-- A constructed reconstructor: the subclass-declared `supported_cameras`
list and the `self.models` dict built in `__init__`. -/
structure DeepLearningReconstructor where
  supported_cameras : List String
  models : List (String × ONNXModel)

/-- Lines 105-107: the dict comprehension
`{cam_name: ONNXModel(path) for (cam_name, path) in models_paths.items()}`
(model loading itself is opaque, so the already-loaded models stand for the
paths). -/
def buildModels (modelsPaths : List (String × ONNXModel)) :
    List (String × ONNXModel) :=
  modelsPaths.foldl (fun d p => dictInsert d p.1 p.2) []

/-- `DeepLearningReconstructor.__init__` (lines 104-119): build the models
dict, then fail with the list of configured camera names absent from
`supported_cameras` when that list is non-empty. -/
def DeepLearningReconstructor.init (supported : List String)
    (modelsPaths : List (String × ONNXModel)) :
    Except InitError DeepLearningReconstructor :=
  let models := buildModels modelsPaths
  let notSupportedCams := (models.map Prod.fst).filter fun c => ¬ (c ∈ supported)
  if notSupportedCams.length > 0 then
    .error (.unsupportedCamera notSupportedCams)
  else
    .ok ⟨supported, models⟩

/-- Prediction batch: the `predictions` dict of lines 148-169, camera name →
ordered list of per-telescope outputs. -/
abbrev PredBatch := List (String × List (List Tensor))

/-- The loop of lines 149-169 over `supported_cameras`, threading the
`predictions` dict: a camera with no configured model is skipped (`continue`),
otherwise its collected observations are predicted in order and the result
list becomes the camera's entry. -/
def dispatchAux (models : List (String × ONNXModel)) (camOf : Nat → String)
    (tels : List (Nat × TelInput)) :
    List String → PredBatch → Except PredictError PredBatch
  | [], acc => .ok acc
  | cam :: rest, acc =>
    match dictGet models cam with
    | none => dispatchAux models camOf tels rest acc
    | some m =>
      match predictAll m (collectInputs camOf tels cam) with
      | .error e => .error e
      | .ok rs => dispatchAux models camOf tels rest (dictInsert acc cam rs)

/-- `DeepLearningReconstructor.predict` (lines 148-170) up to the final
`_reconstruct` call: the `predictions` dict it hands to the combiner. -/
def dispatch (r : DeepLearningReconstructor) (camOf : Nat → String)
    (tels : List (Nat × TelInput)) : Except PredictError PredBatch :=
  dispatchAux r.models camOf tels r.supported_cameras []

/-- A store of ndarray values, for the state-explicit reading of `predict`:
the caller's arrays live in the heap and are passed by reference. -/
abbrev Heap := List Tensor

/-- Dereference an array in the heap. -/
def deref (h : Heap) (r : Nat) : Tensor := h.getD r (Tensor.pylist 0)

/-- The conversion loop of lines 57-62, state-explicit:
`kwargs[name] = inp.astype(np.float32)` allocates a fresh array (appended to
the heap) and rebinds the local dict entry to it; no existing cell is written. -/
def convertLoop : Heap → List (String × Nat) → Heap × List (String × Nat)
  | h, [] => (h, [])
  | h, (name, r) :: rest =>
    if isF64 (deref h r) then
      ((convertLoop (h ++ [convert (deref h r)]) rest).1,
       (name, h.length) :: (convertLoop (h ++ [convert (deref h r)]) rest).2)
    else
      ((convertLoop h rest).1, (name, r) :: (convertLoop h rest).2)

/-- `ONNXModel.predict`, state-explicit: the same checks as `predict`, with
argument values passed as heap references, returning the final heap next to
the result.  Only the conversion loop touches the heap, and only by
allocation. -/
def ONNXModel.predictH (m : ONNXModel) (h : Heap) (args : List Nat)
    (kwargs : List (String × Nat)) : Heap × Except PredictError (List Tensor) :=
  let nInputs := m.inputs.length
  if kwargs.length = 0 ∧ args.length = 0 then
    (h, .error .invalidArgumentUsage)
  else if kwargs.length ≠ 0 ∧ args.length ≠ 0 then
    (h, .error .invalidArgumentUsage)
  else if kwargs.length ≠ nInputs ∧ args.length ≠ nInputs then
    (h, .error .arityMismatch)
  else
    let kw := if args.length ≠ 0 then assignArgs kwargs m.inputs args else kwargs
    let nPredictions := kw.map fun p => tlen (deref h p.2)
    if nPredictions.dedup.length ≠ 1 then
      (h, .error .batchSizeMismatch)
    else
      let ck := convertLoop h kw
      (ck.1, .ok (m.run (ck.2.map fun p => (p.1, deref ck.1 p.2))))

/-- A one-input model whose backend echoes its named inputs. -/
def echoModel1 : ONNXModel := ⟨["x"], fun kw => kw.map Prod.snd⟩

/-- A two-input model whose backend echoes its named inputs. -/
def echoModel2 : ONNXModel := ⟨["a", "b"], fun kw => kw.map Prod.snd⟩

/-- A model declaring zero input slots. -/
def constModel0 : ONNXModel := ⟨[], fun _ => []⟩

/-! ### Helper lemmas about the dict and list operations -/

theorem dictInsert_of_notMem {α : Type} (k : String) (v : α) :
    ∀ d : List (String × α), k ∉ d.map Prod.fst → dictInsert d k v = d ++ [(k, v)]
  | [], _ => rfl
  | (k', v') :: rest, h => by
    simp only [List.map_cons, List.mem_cons, not_or] at h
    simp only [dictInsert, if_neg (Ne.symm h.1), List.cons_append]
    exact congrArg _ (dictInsert_of_notMem k v rest h.2)

theorem assignArgs_eq_zip {α : Type} :
    ∀ (names : List String) (vals : List α) (d : List (String × α)),
      names.Nodup → (∀ n ∈ names, n ∉ d.map Prod.fst) →
      assignArgs d names vals = d ++ names.zip vals
  | [], vals, d, _, _ => by simp [assignArgs]
  | _ :: _, [], d, _, _ => by simp [assignArgs]
  | name :: names, v :: vals, d, hnd, hd => by
    have hmem : name ∉ d.map Prod.fst := hd name (List.mem_cons_self _ _)
    have hnd' := (List.nodup_cons.mp hnd)
    have step : assignArgs d (name :: names) (v :: vals) =
        assignArgs (dictInsert d name v) names vals := rfl
    rw [step, dictInsert_of_notMem name v d hmem,
      assignArgs_eq_zip names vals (d ++ [(name, v)]) hnd'.2 ?_]
    · simp [List.zip_cons_cons]
    · intro n hn
      simp only [List.map_append, List.mem_append, List.map_cons, List.map_nil,
        List.mem_singleton, not_or]
      exact ⟨hd n (List.mem_cons_of_mem _ hn), fun he => hnd'.1 (he ▸ hn)⟩

theorem assignArgs_nil_eq_zip {α : Type} (names : List String) (vals : List α)
    (h : names.Nodup) : assignArgs [] names vals = names.zip vals := by
  have := assignArgs_eq_zip names vals [] h (by simp)
  simpa using this

theorem dedup_eq_singleton :
    ∀ (l : List Nat) (L : Nat), l ≠ [] → (∀ x ∈ l, x = L) → l.dedup = [L]
  | [], _, hne, _ => absurd rfl hne
  | [a], L, _, hall => by
    have : a = L := hall a (List.mem_singleton_self a)
    simp [this]
  | a :: b :: t, L, _, hall => by
    have hrest : (b :: t).dedup = [L] :=
      dedup_eq_singleton (b :: t) L (by simp) fun x hx =>
        hall x (List.mem_cons_of_mem _ hx)
    have ha : a = L := hall a (List.mem_cons_self _ _)
    have hbL : b = L := hall b (List.mem_cons_of_mem _ (List.mem_cons_self _ _))
    have hmem : a ∈ b :: t := by
      rw [ha, ← hbL]; exact List.mem_cons_self _ _
    rw [List.dedup_cons_of_mem hmem, hrest]

theorem all_eq_of_dedup_length_one {l : List Nat}
    (h : l.dedup.length = 1) : ∀ x ∈ l, ∀ y ∈ l, x = y := by
  obtain ⟨a, ha⟩ := List.length_eq_one.mp h
  intro x hx y hy
  have hx' : x ∈ l.dedup := List.mem_dedup.mpr hx
  have hy' : y ∈ l.dedup := List.mem_dedup.mpr hy
  rw [ha, List.mem_singleton] at hx' hy'
  rw [hx', hy']

theorem tlen_convert (t : Tensor) : tlen (convert t) = tlen t := by
  cases t with
  | ndarray d s => cases d <;> rfl
  | pylist n => rfl

theorem convert_convert (t : Tensor) : convert (convert t) = convert t := by
  cases t with
  | ndarray d s => cases d <;> rfl
  | pylist n => rfl

theorem isF64_convert (t : Tensor) : isF64 (convert t) = false := by
  cases t with
  | ndarray d s => cases d <;> rfl
  | pylist n => rfl

theorem dictInsert_mapVals (f : Tensor → Tensor) (k : String) (v : Tensor) :
    ∀ d : List (String × Tensor),
      dictInsert (mapVals f d) k (f v) = mapVals f (dictInsert d k v)
  | [] => rfl
  | (k', v') :: rest => by
    by_cases h : k' = k
    · simp [mapVals, dictInsert, h]
    · simp only [mapVals, List.map_cons, dictInsert, if_neg h]
      exact congrArg _ (dictInsert_mapVals f k v rest)

theorem assignArgs_mapVals (f : Tensor → Tensor) :
    ∀ (names : List String) (vals : List Tensor) (d : List (String × Tensor)),
      assignArgs (mapVals f d) names (vals.map f) = mapVals f (assignArgs d names vals)
  | [], vals, d => by cases vals <;> rfl
  | _ :: _, [], _ => rfl
  | name :: names, v :: vals, d => by
    have step : assignArgs (mapVals f d) (name :: names) ((v :: vals).map f) =
        assignArgs (dictInsert (mapVals f d) name (f v)) names (vals.map f) := rfl
    rw [step, dictInsert_mapVals f name v d]
    exact assignArgs_mapVals f names vals (dictInsert d name v)

theorem mapVals_tlen (kw : List (String × Tensor)) :
    (mapVals convert kw).map (fun p => tlen p.2) = kw.map fun p => tlen p.2 := by
  simp only [mapVals, List.map_map]
  exact List.map_congr_left fun p _ => tlen_convert p.2

theorem mapVals_convert_idem (kw : List (String × Tensor)) :
    mapVals convert (mapVals convert kw) = mapVals convert kw := by
  simp only [mapVals, List.map_map]
  exact List.map_congr_left fun p _ => by simp [convert_convert]

theorem convertLoop_fst_append :
    ∀ (kw : List (String × Nat)) (h : Heap), ∃ ext, (convertLoop h kw).1 = h ++ ext
  | [], h => ⟨[], by simp [convertLoop]⟩
  | (name, r) :: rest, h => by
    by_cases hc : isF64 (deref h r)
    · obtain ⟨ext, hext⟩ :=
        convertLoop_fst_append rest (h ++ [convert (deref h r)])
      exact ⟨[convert (deref h r)] ++ ext, by
        simp only [convertLoop, if_pos hc, hext, List.append_assoc]⟩
    · obtain ⟨ext, hext⟩ := convertLoop_fst_append rest h
      exact ⟨ext, by simp only [convertLoop, if_neg hc, hext]⟩

theorem buildModels_aux :
    ∀ (l d : List (String × ONNXModel)),
      (∀ p ∈ l, p.1 ∉ d.map Prod.fst) → (l.map Prod.fst).Nodup →
      l.foldl (fun d p => dictInsert d p.1 p.2) d = d ++ l
  | [], d, _, _ => by simp
  | (k, m) :: rest, d, hd, hnd => by
    have hk : k ∉ d.map Prod.fst := hd (k, m) (List.mem_cons_self _ _)
    have hnd' : k ∉ rest.map Prod.fst ∧ (rest.map Prod.fst).Nodup := by
      rw [List.map_cons] at hnd
      exact List.nodup_cons.mp hnd
    simp only [List.foldl_cons]
    rw [dictInsert_of_notMem k m d hk,
      buildModels_aux rest (d ++ [(k, m)]) ?_ ?_]
    · simp
    · intro p hp
      simp only [List.map_append, List.mem_append, List.map_cons, List.map_nil,
        List.mem_singleton, not_or]
      refine ⟨hd p (List.mem_cons_of_mem _ hp), fun he => hnd'.1 ?_⟩
      rw [← he]
      exact List.mem_map_of_mem Prod.fst hp
    · exact hnd'.2

theorem buildModels_eq_self (l : List (String × ONNXModel))
    (h : (l.map Prod.fst).Nodup) : buildModels l = l := by
  have := buildModels_aux l [] (by simp) h
  simpa [buildModels] using this

/-! ### Evaluation lemmas for `ONNXModel.predict` -/

theorem zip_map_tlen (names : List String) (vals : List Tensor)
    (h : vals.length ≤ names.length) :
    (names.zip vals).map (fun p => tlen p.2) = vals.map tlen := by
  have he : (fun p : String × Tensor => tlen p.2) = tlen ∘ Prod.snd := rfl
  rw [he, ← List.map_map, List.map_snd_zip _ _ h]

theorem predict_named_eval (m : ONNXModel) (kwargs : List (String × Tensor))
    (hne : m.inputs ≠ []) (hlen : kwargs.length = m.inputs.length) :
    m.predict [] kwargs =
      if (kwargs.map fun p => tlen p.2).dedup.length ≠ 1 then
        .error .batchSizeMismatch
      else
        .ok (m.run (mapVals convert kwargs)) := by
  have hn : m.inputs.length ≠ 0 := fun h => hne (List.length_eq_zero.mp h)
  have hk0 : kwargs.length ≠ 0 := by rw [hlen]; exact hn
  simp [ONNXModel.predict, hk0, mapVals, hlen, hne]

theorem predict_pos_eq_named_call (m : ONNXModel) (args : List Tensor)
    (hne : m.inputs ≠ []) (hnd : m.inputs.Nodup)
    (hlen : args.length = m.inputs.length) :
    m.predict args [] = m.predict [] (m.inputs.zip args) := by
  have hn : m.inputs.length ≠ 0 := fun h => hne (List.length_eq_zero.mp h)
  have ha0 : args.length ≠ 0 := by rw [hlen]; exact hn
  have hz : assignArgs [] m.inputs args = m.inputs.zip args :=
    assignArgs_nil_eq_zip _ _ hnd
  have hzlen : (m.inputs.zip args).length = m.inputs.length := by
    rw [List.length_zip, hlen, Nat.min_self]
  rw [predict_named_eval m (m.inputs.zip args) hne hzlen]
  simp [ONNXModel.predict, ha0, hn, hlen, hz, mapVals]

/-- Claim C2 (amended): for every model with at least one declared input slot
(with distinct slot names, as an ONNX schema guarantees) and every tuple of N
input values sharing one leading length, the positional call succeeds and
returns the same outputs as the call with the same values passed as named
arguments keyed by the schema names in declared order. -/
theorem predict_convention_equiv (m : ONNXModel) (vals : List Tensor) (L : Nat)
    (hne : m.inputs ≠ []) (hnd : m.inputs.Nodup)
    (hlen : vals.length = m.inputs.length)
    (hbatch : ∀ v ∈ vals, tlen v = L) :
    ∃ out, m.predict vals [] = .ok out ∧
      m.predict [] (m.inputs.zip vals) = .ok out := by
  have hn : m.inputs.length ≠ 0 := fun h => hne (List.length_eq_zero.mp h)
  have hzlen : (m.inputs.zip vals).length = m.inputs.length := by
    rw [List.length_zip, hlen, Nat.min_self]
  have hvne : vals ≠ [] := by
    intro h
    rw [h] at hlen
    exact hn hlen.symm
  have hmapne : vals.map tlen ≠ [] := by
    simpa using hvne
  have hded : (vals.map tlen).dedup = [L] :=
    dedup_eq_singleton _ L hmapne (by
      intro x hx
      obtain ⟨v, hv, rfl⟩ := List.mem_map.mp hx
      exact hbatch v hv)
  have hcond : ((m.inputs.zip vals).map fun p => tlen p.2).dedup.length = 1 := by
    rw [zip_map_tlen _ _ (le_of_eq hlen), hded]
    rfl
  rw [predict_pos_eq_named_call m vals hne hnd hlen,
    predict_named_eval m (m.inputs.zip vals) hne hzlen,
    if_neg (by simp [hcond])]
  exact ⟨_, rfl, rfl⟩

/-- Counterexample to claim C2 as stated: a two-input model called with two
positional values of different leading lengths does not succeed — the call
fails with `BatchSizeMismatchError` instead of returning outputs. -/
theorem predict_convention_cex :
    echoModel2.predict [Tensor.pylist 1, Tensor.pylist 2] [] =
      .error .batchSizeMismatch ∧
    ¬ ∃ out, echoModel2.predict [Tensor.pylist 1, Tensor.pylist 2] [] =
      .ok out := by
  refine ⟨rfl, ?_⟩
  rintro ⟨out, h⟩
  have h2 : (Except.error PredictError.batchSizeMismatch :
      Except PredictError (List Tensor)) = Except.ok out := by
    rw [← h]
    rfl
  exact Except.noConfusion h2

/-- Witness for claim C2: the two-input echo model on two equal-length values,
positionally and named, returns the same outputs. -/
theorem predict_convention_witness :
    ∃ out, echoModel2.predict [Tensor.pylist 4, Tensor.pylist 4] [] = .ok out ∧
      echoModel2.predict []
        (echoModel2.inputs.zip [Tensor.pylist 4, Tensor.pylist 4]) = .ok out :=
  predict_convention_equiv echoModel2 [Tensor.pylist 4, Tensor.pylist 4] 4
    (by decide) (by decide) rfl (by decide)

/-- Claim C3: calling `predict` with zero arguments, or with at least one
positional and at least one named argument simultaneously, always fails with
`InvalidArgumentUsageError`, for every model and any argument values. -/
theorem predict_usage_check (m : ONNXModel) :
    m.predict [] [] = .error .invalidArgumentUsage ∧
    ∀ (args : List Tensor) (kwargs : List (String × Tensor)),
      args ≠ [] → kwargs ≠ [] →
      m.predict args kwargs = .error .invalidArgumentUsage := by
  constructor
  · rfl
  · intro args kwargs ha hk
    have ha' : args.length ≠ 0 := fun h => ha (List.length_eq_zero.mp h)
    have hk' : kwargs.length ≠ 0 := fun h => hk (List.length_eq_zero.mp h)
    simp [ONNXModel.predict, ha', hk']

/-- Witness for claim C3: the one-input echo model rejects the zero-argument
call and a mixed positional/named call. -/
theorem predict_usage_witness :
    echoModel1.predict [] [] = .error .invalidArgumentUsage ∧
    echoModel1.predict [Tensor.pylist 1] [("x", Tensor.pylist 1)] =
      .error .invalidArgumentUsage :=
  ⟨(predict_usage_check echoModel1).1,
   (predict_usage_check echoModel1).2 [Tensor.pylist 1] [("x", Tensor.pylist 1)]
     (by decide) (by decide)⟩

/-- Counterexample to claim C4 as stated: for a model declaring zero input
slots, a call with one named argument does not fail with `ArityMismatchError`
— it passes the arity check (line 44 tests both counts with `and`) and runs
the backend successfully. -/
theorem predict_arity_cex :
    constModel0.predict [] [("x", Tensor.pylist 1)] = .ok [] ∧
    constModel0.predict [] [("x", Tensor.pylist 1)] ≠
      .error .arityMismatch := by
  refine ⟨rfl, fun h => ?_⟩
  have h2 : (Except.ok [] : Except PredictError (List Tensor)) =
      Except.error PredictError.arityMismatch := by
    rw [← h]
    rfl
  exact Except.noConfusion h2

/-- Claim C4 (amended): for every model with at least one declared input slot,
a call supplying a nonzero number of arguments of exactly one kind whose count
differs from the declared input count fails with `ArityMismatchError`.  (For a
zero-input model the check never fires: line 44 conjoins both counts.) -/
theorem predict_arity_check (m : ONNXModel) (hne : m.inputs ≠ []) :
    (∀ args : List Tensor, args ≠ [] → args.length ≠ m.inputs.length →
      m.predict args [] = .error .arityMismatch) ∧
    (∀ kwargs : List (String × Tensor), kwargs ≠ [] →
      kwargs.length ≠ m.inputs.length →
      m.predict [] kwargs = .error .arityMismatch) := by
  have hn : m.inputs.length ≠ 0 := fun h => hne (List.length_eq_zero.mp h)
  have hn' : (0 : Nat) ≠ m.inputs.length := fun h => hn h.symm
  constructor
  · intro args ha hlen
    have ha' : args.length ≠ 0 := fun h => ha (List.length_eq_zero.mp h)
    simp [ONNXModel.predict, ha', hn', hlen]
  · intro kwargs hk hlen
    have hk' : kwargs.length ≠ 0 := fun h => hk (List.length_eq_zero.mp h)
    simp [ONNXModel.predict, hk', hn', hlen]

/-- Witness for claim C4: the two-input echo model rejects a one-positional
call and a one-named call with `ArityMismatchError`. -/
theorem predict_arity_witness :
    echoModel2.predict [Tensor.pylist 1] [] = .error .arityMismatch ∧
    echoModel2.predict [] [("a", Tensor.pylist 1)] = .error .arityMismatch :=
  ⟨(predict_arity_check echoModel2 (by decide)).1 [Tensor.pylist 1]
     (by decide) (by decide),
   (predict_arity_check echoModel2 (by decide)).2 [("a", Tensor.pylist 1)]
     (by decide) (by decide)⟩

/-- Counterexample to claim C5 as stated: for a model declaring zero input
slots, a call with one positional value passes the usage and arity checks, all
supplied inputs trivially share one leading length, and yet the call fails
with `BatchSizeMismatchError` (line 54 sees an empty named dict). -/
theorem predict_batch_cex :
    (∀ v ∈ [Tensor.pylist 2], ∀ w ∈ [Tensor.pylist 2], tlen v = tlen w) ∧
    constModel0.predict [Tensor.pylist 2] [] = .error .batchSizeMismatch :=
  ⟨by decide, rfl⟩

/-- Claim C5 (amended): for every model with at least one declared input slot
(with distinct slot names): a call of either convention with the declared
argument count fails with `BatchSizeMismatchError` when two supplied values
have different leading lengths, and raises no such error (it succeeds) when
all supplied values share one leading length. -/
theorem predict_batch_check (m : ONNXModel) (hne : m.inputs ≠ [])
    (hnd : m.inputs.Nodup) :
    (∀ args : List Tensor, args.length = m.inputs.length →
      ((∃ L, ∀ v ∈ args, tlen v = L) → ∃ out, m.predict args [] = .ok out) ∧
      (∀ v ∈ args, ∀ w ∈ args, tlen v ≠ tlen w →
        m.predict args [] = .error .batchSizeMismatch)) ∧
    (∀ kwargs : List (String × Tensor), kwargs.length = m.inputs.length →
      ((∃ L, ∀ p ∈ kwargs, tlen p.2 = L) →
        ∃ out, m.predict [] kwargs = .ok out) ∧
      (∀ p ∈ kwargs, ∀ q ∈ kwargs, tlen p.2 ≠ tlen q.2 →
        m.predict [] kwargs = .error .batchSizeMismatch)) := by
  have hn : m.inputs.length ≠ 0 := fun h => hne (List.length_eq_zero.mp h)
  constructor
  · intro args hlen
    have hzlen : (m.inputs.zip args).length = m.inputs.length := by
      rw [List.length_zip, hlen, Nat.min_self]
    have hane : args ≠ [] := by
      intro h
      rw [h] at hlen
      exact hn hlen.symm
    have hmap : ((m.inputs.zip args).map fun p => tlen p.2) = args.map tlen :=
      zip_map_tlen _ _ (le_of_eq hlen)
    rw [predict_pos_eq_named_call m args hne hnd hlen,
      predict_named_eval m (m.inputs.zip args) hne hzlen, hmap]
    constructor
    · rintro ⟨L, hall⟩
      have hded : (args.map tlen).dedup = [L] :=
        dedup_eq_singleton _ L (by simpa using hane) (by
          intro x hx
          obtain ⟨v, hv, rfl⟩ := List.mem_map.mp hx
          exact hall v hv)
      rw [if_neg (by simp [hded])]
      exact ⟨_, rfl⟩
    · intro v hv w hw hvw
      rw [if_pos]
      intro hone
      exact hvw (all_eq_of_dedup_length_one hone (tlen v)
        (List.mem_map_of_mem tlen hv) (tlen w) (List.mem_map_of_mem tlen hw))
  · intro kwargs hlen
    rw [predict_named_eval m kwargs hne hlen]
    constructor
    · rintro ⟨L, hall⟩
      have hkne : kwargs ≠ [] := by
        intro h
        rw [h] at hlen
        exact hn hlen.symm
      have hded : (kwargs.map fun p => tlen p.2).dedup = [L] :=
        dedup_eq_singleton _ L (by simpa using hkne) (by
          intro x hx
          obtain ⟨p, hp, rfl⟩ := List.mem_map.mp hx
          exact hall p hp)
      rw [if_neg (by simp [hded])]
      exact ⟨_, rfl⟩
    · intro p hp q hq hpq
      rw [if_pos]
      intro hone
      exact hpq (all_eq_of_dedup_length_one hone (tlen p.2)
        (List.mem_map_of_mem _ hp) (tlen q.2) (List.mem_map_of_mem _ hq))

/-- Witness for claim C5: on the two-input echo model, equal-length values
succeed and mismatched named batch lengths fail. -/
theorem predict_batch_witness :
    (∃ out, echoModel2.predict [Tensor.pylist 5, Tensor.pylist 5] [] = .ok out) ∧
    echoModel2.predict [] [("a", Tensor.pylist 3), ("b", Tensor.pylist 4)] =
      .error .batchSizeMismatch :=
  ⟨((predict_batch_check echoModel2 (by decide) (by decide)).1
      [Tensor.pylist 5, Tensor.pylist 5] rfl).1 ⟨5, by decide⟩,
   ((predict_batch_check echoModel2 (by decide) (by decide)).2
      [("a", Tensor.pylist 3), ("b", Tensor.pylist 4)] rfl).2
     ("a", Tensor.pylist 3) (by decide) ("b", Tensor.pylist 4) (by decide)
     (by decide)⟩

/-- Claim C6: construction succeeds whenever the configured camera types are
all in the declared supported set, and fails with `UnsupportedCameraError`
naming exactly the configured camera types not in the supported set whenever
that difference is non-empty. -/
theorem init_camera_support (supported : List String)
    (modelsPaths : List (String × ONNXModel))
    (hkeys : (modelsPaths.map Prod.fst).Nodup) :
    ((∀ c ∈ modelsPaths.map Prod.fst, c ∈ supported) ↔
      (modelsPaths.map Prod.fst).filter (fun c => ¬ (c ∈ supported)) = []) ∧
    ((modelsPaths.map Prod.fst).filter (fun c => ¬ (c ∈ supported)) = [] →
      DeepLearningReconstructor.init supported modelsPaths =
        .ok ⟨supported, modelsPaths⟩) ∧
    ((modelsPaths.map Prod.fst).filter (fun c => ¬ (c ∈ supported)) ≠ [] →
      DeepLearningReconstructor.init supported modelsPaths =
        .error (.unsupportedCamera
          ((modelsPaths.map Prod.fst).filter fun c => ¬ (c ∈ supported)))) := by
  have hbm : buildModels modelsPaths = modelsPaths :=
    buildModels_eq_self modelsPaths hkeys
  refine ⟨?_, ?_, ?_⟩
  · rw [List.filter_eq_nil_iff]
    constructor
    · intro h c hc
      simpa using h c hc
    · intro h c hc
      simpa using h c hc
  · intro hnil
    simp only [DeepLearningReconstructor.init, hbm, hnil]
    rfl
  · intro hne
    simp only [DeepLearningReconstructor.init, hbm]
    rw [if_pos (List.length_pos.mpr hne)]

/-- Witness for claim C6: configured `{A, B}` against supported `{A, B, C}`
succeeds; configured `{A, D}` fails naming exactly `D`. -/
theorem init_camera_support_witness :
    DeepLearningReconstructor.init ["A", "B", "C"]
        [("A", echoModel1), ("B", echoModel1)] =
      .ok ⟨["A", "B", "C"], [("A", echoModel1), ("B", echoModel1)]⟩ ∧
    DeepLearningReconstructor.init ["A", "B", "C"]
        [("A", echoModel1), ("D", echoModel1)] =
      .error (.unsupportedCamera ["D"]) := by
  constructor
  · exact (init_camera_support ["A", "B", "C"]
      [("A", echoModel1), ("B", echoModel1)] (by decide)).2.1 (by decide)
  · exact (init_camera_support ["A", "B", "C"]
      [("A", echoModel1), ("D", echoModel1)] (by decide)).2.2 (by decide)

/-! ### Lemmas about the dispatch loop -/

theorem dispatchAux_ok_spec (models : List (String × ONNXModel))
    (camOf : Nat → String) (tels : List (Nat × TelInput)) :
    ∀ (sup : List String) (acc batch : PredBatch),
      sup.Nodup → (∀ c ∈ sup, c ∉ acc.map Prod.fst) →
      dispatchAux models camOf tels sup acc = .ok batch →
      ∃ ext, batch = acc ++ ext ∧
        ext.map Prod.fst = sup.filter (fun c => (dictGet models c).isSome) ∧
        ∀ c m, c ∈ sup → dictGet models c = some m →
          ∃ rs, predictAll m (collectInputs camOf tels c) = .ok rs ∧
            dictGet ext c = some rs := by
  intro sup
  induction sup with
  | nil =>
    intro acc batch _ _ hok
    simp only [dispatchAux, Except.ok.injEq] at hok
    refine ⟨[], by simp [hok], by simp, ?_⟩
    intro c m hc
    exact absurd hc (List.not_mem_nil c)
  | cons cam rest ih =>
    intro acc batch hnd hdisj hok
    have hndr := List.nodup_cons.mp hnd
    simp only [dispatchAux] at hok
    split at hok
    · rename_i hmg
      obtain ⟨ext, hb, hkeys, hvals⟩ := ih acc batch hndr.2
        (fun c hc => hdisj c (List.mem_cons_of_mem _ hc)) hok
      refine ⟨ext, hb, ?_, ?_⟩
      · rw [hkeys, List.filter_cons]
        simp [hmg]
      · intro c m hc hm
        rcases List.mem_cons.mp hc with rfl | hc'
        · rw [hmg] at hm
          exact absurd hm (by simp)
        · exact hvals c m hc' hm
    · rename_i m hmg
      split at hok
      · exact absurd hok (by simp)
      · rename_i rs hpa
        have hcamacc : cam ∉ acc.map Prod.fst :=
          hdisj cam (List.mem_cons_self _ _)
        rw [dictInsert_of_notMem cam rs acc hcamacc] at hok
        have hdisj' : ∀ c ∈ rest, c ∉ (acc ++ [(cam, rs)]).map Prod.fst := by
          intro c hc
          simp only [List.map_append, List.mem_append, List.map_cons,
            List.map_nil, List.mem_singleton, not_or]
          exact ⟨hdisj c (List.mem_cons_of_mem _ hc),
            fun he => hndr.1 (he ▸ hc)⟩
        obtain ⟨ext, hb, hkeys, hvals⟩ :=
          ih (acc ++ [(cam, rs)]) batch hndr.2 hdisj' hok
        refine ⟨(cam, rs) :: ext, ?_, ?_, ?_⟩
        · rw [hb, List.append_assoc]
          rfl
        · rw [List.map_cons, hkeys, List.filter_cons]
          simp [hmg]
        · intro c m' hc hm
          rcases List.mem_cons.mp hc with rfl | hc'
          · rw [hmg] at hm
            injection hm with hm'
            refine ⟨rs, by rw [← hm']; exact hpa, by simp [dictGet]⟩
          · obtain ⟨rs', h1, h2⟩ := hvals c m' hc' hm
            refine ⟨rs', h1, ?_⟩
            have hcc : cam ≠ c := fun he => hndr.1 (he ▸ hc')
            simpa [dictGet, hcc] using h2

theorem dispatchAux_single (camA : String) (m : ONNXModel)
    (camOf : Nat → String) (tels : List (Nat × TelInput)) (rs : List (List Tensor))
    (hrs : predictAll m (collectInputs camOf tels camA) = .ok rs) :
    ∀ (sup : List String) (acc : PredBatch), sup.Nodup →
      dispatchAux [(camA, m)] camOf tels sup acc =
        .ok (if camA ∈ sup then dictInsert acc camA rs else acc)
  | [], acc, _ => by simp [dispatchAux]
  | cam :: rest, acc, hnd => by
    have hndr := List.nodup_cons.mp hnd
    by_cases hc : camA = cam
    · subst hc
      have hg : dictGet [(camA, m)] camA = some m := by simp [dictGet]
      simp only [dispatchAux, hg, hrs,
        dispatchAux_single camA m camOf tels rs hrs rest
          (dictInsert acc camA rs) hndr.2]
      rw [if_neg hndr.1]
      simp
    · have hg : dictGet [(camA, m)] cam = none := by simp [dictGet, hc]
      simp only [dispatchAux, hg,
        dispatchAux_single camA m camOf tels rs hrs rest acc hndr.2]
      by_cases hmem : camA ∈ rest
      · rw [if_pos hmem, if_pos (List.mem_cons_of_mem _ hmem)]
      · rw [if_neg hmem, if_neg (by simp [List.mem_cons, hc, hmem])]

/-- Claim C1: for an event whose telescopes resolve to camera types
`{A, A, B}` and a reconstructor in which only camera type `A` has a configured
model, the prediction batch built by `DeepLearningReconstructor.predict`
contains exactly one key, `A`, with exactly the two `A`-telescopes'
predictions in the order those telescopes appeared in the input mapping; no
entry for `B` is produced and no error is raised. -/
theorem dispatch_skips_unconfigured (supported : List String)
    (camA camB : String) (m : ONNXModel) (camOf : Nat → String)
    (tels : List (Nat × TelInput)) (t1 t2 t3 : Nat) (i1 i2 i3 : TelInput)
    (r1 r2 : List Tensor)
    (hnd : supported.Nodup) (hmem : camA ∈ supported) (hAB : camA ≠ camB)
    (hcams : ∀ p ∈ tels, camOf p.1 = camA ∨ camOf p.1 = camB)
    (hfA : tels.filter (fun p => camOf p.1 = camA) = [(t1, i1), (t2, i2)])
    (hfB : tels.filter (fun p => camOf p.1 = camB) = [(t3, i3)])
    (hr1 : predictObs m i1 = .ok r1) (hr2 : predictObs m i2 = .ok r2) :
    dispatch ⟨supported, [(camA, m)]⟩ camOf tels = .ok [(camA, [r1, r2])] := by
  have hcol : collectInputs camOf tels camA = [i1, i2] := by
    unfold collectInputs
    rw [hfA]
    rfl
  have hpa : predictAll m (collectInputs camOf tels camA) = .ok [r1, r2] := by
    rw [hcol]
    simp [predictAll, hr1, hr2]
  unfold dispatch
  rw [dispatchAux_single camA m camOf tels [r1, r2] hpa supported [] hnd,
    if_pos hmem]
  rfl

/-- Witness for claim C1: telescopes 1, 2 (camera `A`) and 3 (camera `B`)
with only `A` configured yield exactly `{A: [prediction 1, prediction 2]}`. -/
theorem dispatch_skips_unconfigured_witness :
    dispatch ⟨["A", "B"], [("A", echoModel1)]⟩
        (fun t => if t = 3 then "B" else "A")
        [(1, TelInput.single (Tensor.pylist 7)),
         (2, TelInput.single (Tensor.pylist 7)),
         (3, TelInput.single (Tensor.pylist 9))] =
      .ok [("A", [[Tensor.pylist 7], [Tensor.pylist 7]])] :=
  dispatch_skips_unconfigured ["A", "B"] "A" "B" echoModel1
    (fun t => if t = 3 then "B" else "A")
    [(1, TelInput.single (Tensor.pylist 7)),
     (2, TelInput.single (Tensor.pylist 7)),
     (3, TelInput.single (Tensor.pylist 9))]
    1 2 3 (TelInput.single (Tensor.pylist 7)) (TelInput.single (Tensor.pylist 7))
    (TelInput.single (Tensor.pylist 9)) [Tensor.pylist 7] [Tensor.pylist 7]
    (by decide) (by decide) (by decide) (by decide) rfl rfl rfl rfl

/-- Claim C8: during dispatch, the matching model's `predict` is invoked
positionally when the telescope's input is a sequence, with named arguments
when it is a mapping, and with the value as a single positional argument when
it is a bare tensor. -/
theorem dispatch_convention (m : ONNXModel) (cam : String)
    (camOf : Nat → String) (t : Nat) (inp : TelInput) (hc : camOf t = cam) :
    dispatch ⟨[cam], [(cam, m)]⟩ camOf [(t, inp)] =
      (match inp with
        | .positional xs => m.predict xs []
        | .named kw => m.predict [] kw
        | .single v => m.predict [v] []).map (fun r => [(cam, [r])]) := by
  have hobs : (match inp with
      | TelInput.positional xs => m.predict xs []
      | TelInput.named kw => m.predict [] kw
      | TelInput.single v => m.predict [v] []) = predictObs m inp := by
    cases inp <;> rfl
  rw [hobs]
  have hcol : collectInputs camOf [(t, inp)] cam = [inp] := by
    simp [collectInputs, hc]
  unfold dispatch
  cases hr : predictObs m inp with
  | error e =>
    simp [dispatchAux, dictGet, hcol, predictAll, hr, Except.map]
  | ok r =>
    simp [dispatchAux, dictGet, hcol, predictAll, hr, Except.map, dictInsert]

/-- Witness for claim C8: a bare-tensor input is passed to `predict` as a
single positional argument. -/
theorem dispatch_convention_witness :
    dispatch ⟨["A"], [("A", echoModel1)]⟩ (fun _ => "A")
        [(1, TelInput.single (Tensor.pylist 3))] =
      (echoModel1.predict [Tensor.pylist 3] []).map (fun r => [("A", [r])]) :=
  dispatch_convention echoModel1 "A" (fun _ => "A") 1
    (TelInput.single (Tensor.pylist 3)) rfl

/-- Claim C9: whenever dispatch returns a prediction batch, its keys are
exactly the supported camera types that have a configured model, in the order
of the supported-camera declaration, independent of the event's telescopes;
a supported, configured camera type with zero telescopes in the event is
present with an empty list. -/
theorem dispatch_keys (supported : List String)
    (models : List (String × ONNXModel)) (camOf : Nat → String)
    (tels : List (Nat × TelInput)) (batch : PredBatch)
    (hnd : supported.Nodup)
    (hok : dispatch ⟨supported, models⟩ camOf tels = .ok batch) :
    batch.map Prod.fst =
      supported.filter (fun c => (dictGet models c).isSome) ∧
    ∀ c m, c ∈ supported → dictGet models c = some m →
      (∀ p ∈ tels, ¬ (camOf p.1 = c)) → dictGet batch c = some [] := by
  obtain ⟨ext, hb, hkeys, hvals⟩ :=
    dispatchAux_ok_spec models camOf tels supported [] batch hnd (by simp) hok
  rw [List.nil_append] at hb
  subst hb
  refine ⟨hkeys, ?_⟩
  intro c m hc hm hno
  have hcol : collectInputs camOf tels c = [] := by
    unfold collectInputs
    rw [List.filter_eq_nil_iff.mpr ?_]
    · rfl
    · intro p hp
      simpa using hno p hp
  obtain ⟨rs, h1, h2⟩ := hvals c m hc hm
  rw [hcol] at h1
  have hrs : rs = [] := by
    have h1' : (Except.ok [] : Except PredictError (List (List Tensor))) =
        .ok rs := by
      rw [← h1]
      rfl
    injection h1' with h1''
    exact h1''.symm
  rw [hrs] at h2
  exact h2

/-- Witness for claim C9: supported `[A, B, C]` with models for `A` and `C`
and an event containing only an `A`-telescope yields keys `[A, C]`, with `C`
mapped to the empty list. -/
theorem dispatch_keys_witness :
    ([("A", [[Tensor.pylist 1]]), ("C", ([] : List (List Tensor)))].map
        Prod.fst =
      ["A", "B", "C"].filter
        (fun c => (dictGet [("A", echoModel1), ("C", echoModel1)] c).isSome)) ∧
    dictGet [("A", [[Tensor.pylist 1]]), ("C", ([] : List (List Tensor)))]
        "C" = some [] := by
  have h := dispatch_keys ["A", "B", "C"]
    [("A", echoModel1), ("C", echoModel1)] (fun _ => "A")
    [(1, TelInput.single (Tensor.pylist 1))]
    [("A", [[Tensor.pylist 1]]), ("C", [])] (by decide) rfl
  exact ⟨h.1, h.2 "C" echoModel1 (by decide) rfl (by decide)⟩

/-! ### The float64 → float32 narrowing -/

theorem mapVals_run_input (d : List (String × Tensor)) :
    (mapVals convert d).map (fun p => (p.1, convert p.2)) =
      d.map (fun p => (p.1, convert p.2)) := by
  have := mapVals_convert_idem d
  simpa [mapVals] using this

theorem predict_map_convert (m : ONNXModel) (args : List Tensor)
    (kwargs : List (String × Tensor)) :
    m.predict (args.map convert) (mapVals convert kwargs) =
      m.predict args kwargs := by
  have hka : (mapVals convert kwargs).length = kwargs.length := by
    simp [mapVals]
  have haa : (args.map convert).length = args.length := List.length_map _ _
  simp only [ONNXModel.predict, hka, haa]
  by_cases h1 : kwargs.length = 0 ∧ args.length = 0
  · rw [if_pos h1, if_pos h1]
  rw [if_neg h1, if_neg h1]
  by_cases h2 : kwargs.length ≠ 0 ∧ args.length ≠ 0
  · rw [if_pos h2, if_pos h2]
  rw [if_neg h2, if_neg h2]
  by_cases h3 : kwargs.length ≠ m.inputs.length ∧ args.length ≠ m.inputs.length
  · rw [if_pos h3, if_pos h3]
  rw [if_neg h3, if_neg h3]
  by_cases h4 : args.length ≠ 0
  · rw [if_pos h4, if_pos h4, assignArgs_mapVals,
      mapVals_tlen (assignArgs kwargs m.inputs args),
      mapVals_run_input (assignArgs kwargs m.inputs args)]
  · rw [if_neg h4, if_neg h4, mapVals_tlen kwargs, mapVals_run_input kwargs]

/-- Claim C7: a float64 ndarray input is narrowed to float32 (same shape)
before the backend is invoked, any other value is passed through unchanged,
the backend never receives a float64 ndarray, and pre-narrowing the inputs
does not change the call's outcome (no error is introduced and the outputs
are identical). -/
theorem predict_float64_narrowing (m : ONNXModel) (args : List Tensor)
    (kwargs : List (String × Tensor)) :
    (∀ shape, convert (Tensor.ndarray DType.float64 shape) =
      Tensor.ndarray DType.float32 shape) ∧
    (∀ t, isF64 t = false → convert t = t) ∧
    (∀ out, m.predict args kwargs = .ok out →
      ∃ kw, out = m.run kw ∧ ∀ p ∈ kw, isF64 p.2 = false) ∧
    m.predict (args.map convert) (mapVals convert kwargs) =
      m.predict args kwargs := by
  refine ⟨fun shape => rfl, ?_, ?_, predict_map_convert m args kwargs⟩
  · intro t ht
    cases t with
    | ndarray d s =>
      cases d with
      | float64 => exact absurd ht (by simp [isF64])
      | float32 => rfl
      | int64 => rfl
    | pylist n => rfl
  · intro out hok
    simp only [ONNXModel.predict] at hok
    split at hok
    · exact absurd hok (by simp)
    · split at hok
      · exact absurd hok (by simp)
      · split at hok
        · exact absurd hok (by simp)
        · split at hok
          · split at hok
            · exact absurd hok (by simp)
            · injection hok with hout
              refine ⟨_, hout.symm, ?_⟩
              intro p hp
              obtain ⟨q, hq, rfl⟩ := List.mem_map.mp hp
              exact isF64_convert q.2
          · split at hok
            · exact absurd hok (by simp)
            · injection hok with hout
              refine ⟨_, hout.symm, ?_⟩
              intro p hp
              obtain ⟨q, hq, rfl⟩ := List.mem_map.mp hp
              exact isF64_convert q.2

/-- Witness for claim C7: a `2 × 5` float64 ndarray is narrowed to float32
with the same shape; on the one-input echo model the backend receives only
non-float64 values and pre-narrowing leaves the call's result unchanged. -/
theorem predict_float64_witness :
    convert (Tensor.ndarray DType.float64 [2, 5]) =
      Tensor.ndarray DType.float32 [2, 5] ∧
    (∃ kw, [Tensor.ndarray DType.float32 [2, 5]] = echoModel1.run kw ∧
      ∀ p ∈ kw, isF64 p.2 = false) ∧
    echoModel1.predict ([Tensor.ndarray DType.float64 [2, 5]].map convert)
        (mapVals convert []) =
      echoModel1.predict [Tensor.ndarray DType.float64 [2, 5]] [] :=
  ⟨(predict_float64_narrowing echoModel1 [Tensor.ndarray DType.float64 [2, 5]]
      []).1 [2, 5],
   (predict_float64_narrowing echoModel1 [Tensor.ndarray DType.float64 [2, 5]]
      []).2.2.1 [Tensor.ndarray DType.float32 [2, 5]] rfl,
   (predict_float64_narrowing echoModel1 [Tensor.ndarray DType.float64 [2, 5]]
      []).2.2.2⟩

/-- Claim C10: every `predict` call, whether it returns or raises, leaves all
pre-existing heap cells (the caller's arrays) unchanged — the float64 →
float32 narrowing only allocates fresh arrays, never overwrites a caller's
array.  The model and the registry are not part of the threaded state at all:
`predict` writes nothing but its local dict and the fresh cells. -/
theorem predictH_preserves_heap (m : ONNXModel) (h : Heap) (args : List Nat)
    (kwargs : List (String × Nat)) :
    ((m.predictH h args kwargs).1).take h.length = h := by
  simp only [ONNXModel.predictH]
  split
  · simp
  · split
    · simp
    · split
      · simp
      · split
        · split
          · simp
          · obtain ⟨ext, hext⟩ :=
              convertLoop_fst_append (assignArgs kwargs m.inputs args) h
            simp only [hext]
            exact List.take_left h ext
        · split
          · simp
          · obtain ⟨ext, hext⟩ := convertLoop_fst_append kwargs h
            simp only [hext]
            exact List.take_left h ext
